import Mathlib

/-!
Shallow embedding of the chat-thread / message persistence core of the
luthaAI backend (`backend/routes/routes.py` together with the row types of
`backend/models.py`).

The relational store is modelled as an explicit state value (`DB`): each
SQLAlchemy table is a list of row records, and the autoincrement primary-key
counters are carried explicitly.  Each FastAPI handler of `routes.py` becomes
a pure function from a `DB` (plus the authenticated user's id and the request
data) to `Except ApiError`; a handler that commits returns the updated `DB`,
and a handler that raises `HTTPException` before committing returns an error
and no state, which makes "no mutation before failing" structural.

SQL specifics that the handlers rely on are modelled as follows:
* `.filter(...).first()` is `List.find?` over the table;
* `ORDER BY messages.id ASC` is a `mergeSort` by the `id` field;
* `OFFSET n` / `LIMIT n` follow SQLite semantics (the backend is configured
  by `DATABASE_URL`): a negative offset skips nothing, a negative limit
  returns everything;
* Python `//` (floor division) is `Int.fdiv`; the `ZeroDivisionError` raised
  by `total_pages` when `per_page == 0` surfaces as an uncaught exception
  (HTTP 500), modelled by `ApiError.ServerError`;
* `UPDATE`/`DELETE` of a row object fetched by primary key are modelled by
  rewriting/removing every row with that id — identical to the single-row
  operation because primary keys are unique in the real store;
* Python string slicing `content[:10]` is `String.take` (both count code
  points), `.lower()` / `.strip()` are per-character ASCII lowering and
  whitespace stripping over the character list.

File-system writes in the upload handler are assumed to succeed (their
failure path re-raises as HTTP 500 and commits nothing); text extraction
(`convert_file_to_text`) and summarization (`get_text_summary`) are external
collaborators and enter the upload model as parameters.
-/

/-- Row of the `messages` table (`backend/models.py`, class `Message`). -/
structure Message where
  id : Nat
  chat_id : Nat
  role : String
  content : String
deriving Repr, DecidableEq

/-- Row of the `chats` table (`backend/models.py`, class `Chat`). -/
structure Chat where
  id : Nat
  user_id : Nat
  name : String
deriving Repr, DecidableEq

/-- The relational store: the two tables the chat routes touch, plus the
autoincrement counters for their integer primary keys. -/
structure DB where
  chats : List Chat
  messages : List Message
  nextChatId : Nat
  nextMessageId : Nat
deriving Repr, DecidableEq

/-- Errors surfaced by the handlers.  `NotAuthorized` is the single opaque
403 `"Not authorized for this chat."`; `ValidationError` is a 422 with its
detail string; `ServerError` is an uncaught exception surfacing as HTTP 500. -/
inductive ApiError where
  | NotAuthorized
  | ValidationError (detail : String)
  | ServerError
deriving Repr, DecidableEq

deriving instance DecidableEq for Except

/-- The ownership lookup shared by every chat handler:
`db.query(Chat).filter(Chat.id == chat_id, Chat.user_id == current_user.id).first()`. -/
def DB.findChat (db : DB) (chat_id uid : Nat) : Option Chat :=
  db.chats.find? (fun c => c.id == chat_id && c.user_id == uid)

/-- The rows of the `messages` table belonging to one chat, in table order:
`db.query(Message).filter(Message.chat_id == chat_id)`. -/
def DB.msgRows (db : DB) (chat_id : Nat) : List Message :=
  db.messages.filter (fun m => m.chat_id == chat_id)

/-- Insert a message into a list kept ascending by `id`. -/
def insertById (m : Message) : List Message → List Message
  | [] => [m]
  | x :: xs => if m.id ≤ x.id then m :: x :: xs else x :: insertById m xs

/-- Sort a list of messages ascending by `id` (insertion sort — primary keys
are unique, so this is the unique id-ordered permutation `ORDER BY` yields). -/
def sortById : List Message → List Message
  | [] => []
  | x :: xs => insertById x (sortById xs)

/-- The same rows ordered by `Message.id` ascending
(`.order_by(Message.id.asc())`). -/
def DB.chatMessages (db : DB) (chat_id : Nat) : List Message :=
  sortById (db.msgRows chat_id)

/-- The count query of the auto-rename branch:
`db.query(Message).filter(Message.chat_id == chat_id, Message.role == "user").count()`. -/
def DB.userMsgCount (db : DB) (chat_id : Nat) : Nat :=
  (db.messages.filter (fun m => m.chat_id == chat_id && m.role == "user")).length

/-- The thread name as its owner observes it (the `name` of the row that the
ownership lookup returns). -/
def threadName (db : DB) (uid chat_id : Nat) : Option String :=
  (db.findChat chat_id uid).map (fun c => c.name)

/-- `OFFSET` with SQLite semantics: a negative offset skips nothing. -/
def sqlOffset (l : List Message) (n : Int) : List Message :=
  l.drop n.toNat

/-- `LIMIT` with SQLite semantics: a negative limit returns all rows. -/
def sqlLimit (l : List Message) (n : Int) : List Message :=
  if n < 0 then l else l.take n.toNat

/-- `total_pages = max(1, (total_messages + per_page - 1) // per_page)`
(routes.py line 108); Python `//` is floor division, `Int.fdiv`. -/
def totalPagesCalc (total_messages : Nat) (per_page : Int) : Int :=
  max 1 (((total_messages : Int) + per_page - 1).fdiv per_page)

/-- The slice `.offset((page - 1) * per_page).limit(per_page)` of the
id-ordered messages of a chat (routes.py lines 109–116). -/
def pageSlice (l : List Message) (page per_page : Int) : List Message :=
  sqlLimit (sqlOffset l ((page - 1) * per_page)) per_page

/-- `GET /chat/{chat_id}/messages` (routes.py, `get_chat_messages`).
Returns the `(role, content)` projection of the page slice together with
`total_pages`.  When `per_page == 0` the Python handler raises
`ZeroDivisionError` at the `total_pages` computation (after the count query,
before the slice query), surfacing as HTTP 500. -/
def get_chat_messages (db : DB) (uid chat_id : Nat) (page per_page : Int) :
    Except ApiError (List (String × String) × Int) :=
  match db.findChat chat_id uid with
  | none => .error .NotAuthorized
  | some _ =>
    if per_page == 0 then .error .ServerError
    else
      let total_messages := (db.msgRows chat_id).length
      let total_pages := totalPagesCalc total_messages per_page
      let msgs := pageSlice (db.chatMessages chat_id) page per_page
      .ok (msgs.map (fun m => (m.role, m.content)), total_pages)

/-- The auto-rename text (routes.py lines 151–153):
`first_chars = content[:10]`, then `+= "..."` when `len(content) > 10`. -/
def autoRenameText (content : String) : String :=
  let first_chars := content.take 10
  if content.length > 10 then first_chars ++ "..." else first_chars

/-- `POST /chat/{chat_id}/send_message` (routes.py, `send_message_to_chat`).
The request body is a plain `dict`; `data.get("role", "user")` and
`data.get("content", "")` become `Option.getD` of the two optional fields.
Returns the committed store and the new `message_id`. -/
def send_message_to_chat (db : DB) (uid chat_id : Nat)
    (role content : Option String) : Except ApiError (DB × Nat) :=
  match db.findChat chat_id uid with
  | none => .error .NotAuthorized
  | some chat =>
    let r := role.getD "user"
    let c := content.getD ""
    let msg : Message := ⟨db.nextMessageId, chat_id, r, c⟩
    let db1 : DB := { db with messages := db.messages ++ [msg],
                              nextMessageId := db.nextMessageId + 1 }
    if r == "user" && chat.name == "New Chat" then
      if db1.userMsgCount chat_id == 1 then
        .ok ({ db1 with chats := db1.chats.map (fun ch =>
                 if ch.id == chat_id then { ch with name := autoRenameText c }
                 else ch) }, msg.id)
      else .ok (db1, msg.id)
    else .ok (db1, msg.id)

/-- `POST /create_chat` (routes.py, `create_chat`): inserts a thread with the
default sentinel name and returns its id. -/
def create_chat (db : DB) (uid : Nat) : DB × Nat :=
  ({ db with chats := db.chats ++ [⟨db.nextChatId, uid, "New Chat"⟩],
             nextChatId := db.nextChatId + 1 }, db.nextChatId)

/-- `DELETE /chat/{chat_id}/delete` (routes.py, `delete_chat`): bulk-deletes
the chat's messages, then the chat row, in one commit. -/
def delete_chat (db : DB) (uid chat_id : Nat) : Except ApiError DB :=
  match db.findChat chat_id uid with
  | none => .error .NotAuthorized
  | some _ =>
    .ok { db with
          messages := db.messages.filter (fun m => !(m.chat_id == chat_id)),
          chats := db.chats.filter (fun c => !(c.id == chat_id)) }

/-- The extension part of Python `os.path.splitext(p)`: the suffix starting
at the last dot of the basename, provided some non-dot character of the
basename precedes it (leading dots never start an extension). -/
def splitextExt (p : String) : String :=
  let basename := p.data.foldl (fun acc c => if c = '/' then [] else acc ++ [c]) []
  let rest := basename.dropWhile (fun c => c = '.')
  if rest.contains '.' then
    ⟨'.' :: rest.foldl (fun acc c => if c = '.' then [] else acc ++ [c]) []⟩
  else ""

/-- Python `str.lower()` restricted to ASCII, per character (extensions are
ASCII in the map below). -/
def strLower (s : String) : String :=
  ⟨s.data.map Char.toLower⟩

/-- `content_type_map` of `upload_chat_file` (routes.py lines 259–263). -/
def content_type_map (ext : String) : Option String :=
  if ext = ".pdf" then some "application/pdf"
  else if ext = ".docx" then
    some "application/vnd.openxmlformats-officedocument.wordprocessingml.document"
  else if ext = ".txt" then some "text/plain"
  else none

/-- The test `not extracted_text or len(extracted_text.strip()) == 0`
(routes.py line 291): the string is empty or all-whitespace. -/
def isBlank (s : String) : Bool :=
  s.data.all Char.isWhitespace

/-- The summary selection of `upload_chat_file` (routes.py lines 290–300):
fixed placeholder when the extracted text is empty/blank, the summarizer's
output otherwise, with fixed fallbacks when the summarizer returns a falsy
value or raises (`none`). -/
def uploadSummary (extracted_text : String)
    (summarize : String → Option String) : String :=
  if isBlank extracted_text then
    "The file appears to be empty or could not be processed."
  else
    match summarize extracted_text with
    | none => "An error occurred while generating the summary."
    | some s =>
      if s = "" then
        "Could not generate summary. The text might be too short or in an unsupported format."
      else s

/-- `POST /chat/{chat_id}/upload` (routes.py, `upload_chat_file`).
`extracted_text` is the value of `convert_file_to_text` on the saved file;
`summarize` models `get_text_summary` (`none` = the call raised).  On success
the two synthetic messages are inserted directly (`db.add`, not the
send-message handler) and committed together; the response carries the unique
filename and the summary. -/
def upload_chat_file (db : DB) (uid chat_id : Nat) (filename : String)
    (extracted_text : String) (summarize : String → Option String) :
    Except ApiError (DB × String × String) :=
  match db.findChat chat_id uid with
  | none => .error .NotAuthorized
  | some _ =>
    let file_ext := strLower (splitextExt filename)
    match content_type_map file_ext with
    | none => .error (.ValidationError ("Unsupported file type: " ++ file_ext))
    | some _ =>
      let summary := uploadSummary extracted_text summarize
      let unique_filename := "chat_" ++ toString chat_id ++ "_" ++ filename
      let file_message : Message :=
        ⟨db.nextMessageId, chat_id, "user", "📎 Uploaded file: " ++ filename⟩
      let summary_message : Message :=
        ⟨db.nextMessageId + 1, chat_id, "assistant",
          "Here\x27s a summary of " ++ filename ++ ":\n\n" ++ summary⟩
      .ok ({ db with messages := db.messages ++ [file_message, summary_message],
                     nextMessageId := db.nextMessageId + 2 },
           unique_filename, summary)

/-- One step of a client that keeps calling `send_message_to_chat` on the
same thread: an error leaves the store untouched. -/
def sendStep (uid chat_id : Nat) (db : DB) (req : Option String × Option String) : DB :=
  match send_message_to_chat db uid chat_id req.1 req.2 with
  | .ok (db', _) => db'
  | .error _ => db

/-- How many of the appends in `reqs` change the thread name the owner sees. -/
def nameChanges (uid chat_id : Nat) : DB → List (Option String × Option String) → Nat
  | _, [] => 0
  | db, req :: reqs =>
    (if threadName (sendStep uid chat_id db req) uid chat_id = threadName db uid chat_id
     then 0 else 1) + nameChanges uid chat_id (sendStep uid chat_id db req) reqs

/-- A store with one freshly created thread (id 1, owner 1) and no messages,
as `create_chat` leaves it; used to instantiate the theorems below. -/
def dbFresh : DB := ⟨[⟨1, 1, "New Chat"⟩], [], 2, 1⟩

/-- A store whose thread 1 (owner 1) holds three messages. -/
def dbThree : DB :=
  ⟨[⟨1, 1, "abc"⟩], [⟨1, 1, "user", "a"⟩, ⟨2, 1, "assistant", "b"⟩, ⟨3, 1, "user", "c"⟩], 2, 4⟩

theorem insertById_perm (m : Message) (l : List Message) :
    List.Perm (insertById m l) (m :: l) := by
  induction l with
  | nil => simp [insertById]
  | cons x xs ih =>
    simp only [insertById]
    split
    · exact List.Perm.refl _
    · exact (List.Perm.cons x ih).trans (List.Perm.swap m x xs)

theorem sortById_perm (l : List Message) : List.Perm (sortById l) l := by
  induction l with
  | nil => exact List.Perm.refl _
  | cons x xs ih => exact (insertById_perm x (sortById xs)).trans (List.Perm.cons x ih)

theorem pairwise_insertById (m : Message) (l : List Message)
    (h : l.Pairwise (fun a b => a.id ≤ b.id)) :
    (insertById m l).Pairwise (fun a b => a.id ≤ b.id) := by
  induction l with
  | nil => simp [insertById]
  | cons x xs ih =>
    rcases List.pairwise_cons.mp h with ⟨hx, hxs⟩
    simp only [insertById]
    split
    case isTrue hle =>
      refine List.pairwise_cons.mpr ⟨?_, h⟩
      intro b hb
      rcases List.mem_cons.mp hb with hbx | hbxs
      · exact hbx ▸ hle
      · exact le_trans hle (hx b hbxs)
    case isFalse hgt =>
      refine List.pairwise_cons.mpr ⟨?_, ih hxs⟩
      intro b hb
      rcases List.mem_cons.mp ((insertById_perm m xs).mem_iff.mp hb) with hbm | hbxs
      · exact hbm ▸ le_of_not_le hgt
      · exact hx b hbxs

theorem pairwise_sortById (l : List Message) :
    (sortById l).Pairwise (fun a b => a.id ≤ b.id) := by
  induction l with
  | nil => exact List.Pairwise.nil
  | cons x xs ih => exact pairwise_insertById x (sortById xs) ih

theorem findChat_eq_none_of_unowned (db : DB) (u1 u2 T : Nat) (hne : u1 ≠ u2)
    (hown : ∀ c ∈ db.chats, c.id = T → c.user_id = u1) :
    db.findChat T u2 = none := by
  apply List.find?_eq_none.mpr
  intro c hc
  simp only [Bool.and_eq_true, beq_iff_eq, not_and]
  intro h1 h2
  exact hne ((hown c hc h1).symm.trans h2)

/-- C1: for distinct users `u1 ≠ u2`, a thread id `T` that is either owned by
`u1` or absent from the store looks the same to `u2`: `get_chat_messages`,
`send_message_to_chat`, and `delete_chat` all fail with the one opaque
`NotAuthorized` error, and — since an erring handler returns no store — no
mutation happens before the failure. -/
theorem cross_user_requests_fail (db : DB) (u1 u2 T : Nat) (hne : u1 ≠ u2)
    (hown : ∀ c ∈ db.chats, c.id = T → c.user_id = u1)
    (page per_page : Int) (role content : Option String) :
    get_chat_messages db u2 T page per_page = .error .NotAuthorized
    ∧ send_message_to_chat db u2 T role content = .error .NotAuthorized
    ∧ delete_chat db u2 T = .error .NotAuthorized := by
  have h := findChat_eq_none_of_unowned db u1 u2 T hne hown
  exact ⟨by simp [get_chat_messages, h], by simp [send_message_to_chat, h],
    by simp [delete_chat, h]⟩

/-- Witness for C1 at a concrete store: thread 1 is owned by user 1 (and
thread 7 does not exist); user 2 gets `NotAuthorized` from all three
handlers on both thread ids. -/
theorem cross_user_requests_fail_witness :
    (get_chat_messages dbFresh 2 1 1 20 = .error .NotAuthorized
      ∧ send_message_to_chat dbFresh 2 1 (some "user") (some "x") = .error .NotAuthorized
      ∧ delete_chat dbFresh 2 1 = .error .NotAuthorized)
    ∧ (get_chat_messages dbFresh 2 7 1 20 = .error .NotAuthorized
      ∧ send_message_to_chat dbFresh 2 7 (some "user") (some "x") = .error .NotAuthorized
      ∧ delete_chat dbFresh 2 7 = .error .NotAuthorized) :=
  ⟨cross_user_requests_fail dbFresh 1 2 1 (by decide) (by decide) 1 20
      (some "user") (some "x"),
    cross_user_requests_fail dbFresh 1 2 7 (by decide) (by decide) 1 20
      (some "user") (some "x")⟩

theorem pagesJoin (p : Nat) (l : List Message) (k : Nat) :
    (List.range k).flatMap (fun i => (l.drop (i * p)).take p) = l.take (k * p) := by
  induction k with
  | zero => simp
  | succ k ih =>
    rw [List.range_succ, List.flatMap_append, ih]
    simp only [List.flatMap_cons, List.flatMap_nil, List.append_nil]
    rw [Nat.succ_mul, List.take_add]

theorem le_totalPages_mul (N p : Nat) (hp : 0 < p) :
    N ≤ (max 1 ((N + p - 1) / p)) * p := by
  rcases Nat.eq_zero_or_pos N with h0 | hN
  · subst h0; exact Nat.zero_le _
  · have h1 : N + p - 1 = (N - 1) + p := by omega
    have h2 : (N + p - 1) / p = (N - 1) / p + 1 := by
      rw [h1, Nat.add_div_right _ hp]
    have h3 : N - 1 < ((N - 1) / p + 1) * p :=
      (Nat.div_lt_iff_lt_mul hp).mp (Nat.lt_succ_self _)
    have h4 : max 1 ((N - 1) / p + 1) = (N - 1) / p + 1 :=
      max_eq_right (Nat.le_add_left 1 _)
    rw [h2, h4]
    calc N ≤ (N - 1) + 1 := by omega
      _ ≤ ((N - 1) / p + 1) * p := Nat.succ_le_of_lt h3

theorem totalPages_min (N p k : Nat) (hp : 0 < p) (hk : 1 ≤ k)
    (hN : N ≤ k * p) : max 1 ((N + p - 1) / p) ≤ k := by
  have hN' : N ≤ p * k := by rwa [Nat.mul_comm] at hN
  have h1 : (N + p - 1) / p ≤ k :=
    (Nat.div_le_iff_le_mul_add_pred hp).mpr (by omega)
  omega

theorem totalPagesCalc_toNat (N : Nat) (P : Int) (hP : 0 < P) :
    totalPagesCalc N P = ((max 1 ((N + P.toNat - 1) / P.toNat) : Nat) : Int) := by
  have hPp : ((P.toNat : Int)) = P := Int.toNat_of_nonneg (le_of_lt hP)
  have hp1 : 1 ≤ P.toNat := by omega
  have h1 : (N : Int) + P - 1 = ((N + P.toNat - 1 : Nat) : Int) := by omega
  unfold totalPagesCalc
  rw [h1, ← hPp, ← Int.ofNat_fdiv]
  push_cast
  rfl

theorem pageSlice_eq (l : List Message) (page P : Int) (hP : 0 < P)
    (hpage : 1 ≤ page) :
    pageSlice l page P = (l.drop ((page - 1).toNat * P.toNat)).take P.toNat := by
  unfold pageSlice sqlOffset sqlLimit
  have hneg : ¬ P < 0 := by omega
  simp only [hneg, if_false]
  obtain ⟨n, hn⟩ := Int.eq_ofNat_of_zero_le (by omega : (0 : Int) ≤ page - 1)
  obtain ⟨p, hp⟩ := Int.eq_ofNat_of_zero_le (le_of_lt hP)
  rw [hn, hp, ← Int.ofNat_mul, Int.toNat_ofNat, Int.toNat_ofNat, Int.toNat_ofNat]

/-- C2: for the owner of a thread and any positive `per_page` `P`, every page
`1, 2, ...` of `get_chat_messages` succeeds and reports the same
`total_pages`; concatenating pages `1 .. total_pages` yields exactly the
thread's messages in ascending id order, with no duplication or omission
(the returned order is id-sorted and a permutation of the thread's rows);
`total_pages` is `max 1 ⌈N / P⌉` (characterized as the least `k ≥ 1` with
`N ≤ k·P`); with zero messages page 1 returns `([], 1)`, never an error and
never `total_pages = 0`; and any out-of-range page yields an empty slice
(with the same `total_pages`, by the first conjunct). -/
theorem get_messages_pagination (db : DB) (uid cid : Nat) (chat : Chat)
    (h : db.findChat cid uid = some chat) (P : Int) (hP : 0 < P) :
    (∀ page : Int, 1 ≤ page →
        get_chat_messages db uid cid page P =
          .ok ((pageSlice (db.chatMessages cid) page P).map
                 (fun m => (m.role, m.content)),
               totalPagesCalc (db.chatMessages cid).length P))
    ∧ (List.range (totalPagesCalc (db.chatMessages cid).length P).toNat).flatMap
        (fun i => pageSlice (db.chatMessages cid) ((i : Int) + 1) P)
        = db.chatMessages cid
    ∧ (db.chatMessages cid).Pairwise (fun a b => a.id ≤ b.id)
    ∧ List.Perm (db.chatMessages cid) (db.msgRows cid)
    ∧ 1 ≤ totalPagesCalc (db.chatMessages cid).length P
    ∧ (db.chatMessages cid).length
        ≤ (totalPagesCalc (db.chatMessages cid).length P).toNat * P.toNat
    ∧ (∀ k : Nat, 1 ≤ k → (db.chatMessages cid).length ≤ k * P.toNat →
        (totalPagesCalc (db.chatMessages cid).length P).toNat ≤ k)
    ∧ ((db.chatMessages cid).length = 0 →
        get_chat_messages db uid cid 1 P = .ok ([], 1))
    ∧ (∀ page : Int, totalPagesCalc (db.chatMessages cid).length P < page →
        pageSlice (db.chatMessages cid) page P = []) := by
  have hPp : ((P.toNat : Int)) = P := Int.toNat_of_nonneg (le_of_lt hP)
  have hp0 : 0 < P.toNat := by omega
  have hNrows : (db.msgRows cid).length = (db.chatMessages cid).length :=
    (sortById_perm (db.msgRows cid)).length_eq.symm
  have hPne : (P == 0) = false := beq_eq_false_iff_ne.mpr (by omega)
  have htot := totalPagesCalc_toNat (db.chatMessages cid).length P hP
  have htotNat : (totalPagesCalc (db.chatMessages cid).length P).toNat
      = max 1 (((db.chatMessages cid).length + P.toNat - 1) / P.toNat) := by
    rw [htot, Int.toNat_ofNat]
  have htot1 : 1 ≤ totalPagesCalc (db.chatMessages cid).length P := by
    rw [htot]
    have := Nat.le_max_left 1
      (((db.chatMessages cid).length + P.toNat - 1) / P.toNat)
    omega
  have hA : ∀ page : Int, 1 ≤ page →
      get_chat_messages db uid cid page P =
        .ok ((pageSlice (db.chatMessages cid) page P).map
               (fun m => (m.role, m.content)),
             totalPagesCalc (db.chatMessages cid).length P) := by
    intro page _hpage
    simp only [get_chat_messages, h, hPne, Bool.false_eq_true, if_false, hNrows]
  have hle : (db.chatMessages cid).length
      ≤ (totalPagesCalc (db.chatMessages cid).length P).toNat * P.toNat := by
    rw [htotNat]
    exact le_totalPages_mul _ _ hp0
  have hB : (List.range (totalPagesCalc (db.chatMessages cid).length P).toNat).flatMap
      (fun i => pageSlice (db.chatMessages cid) ((i : Int) + 1) P)
      = db.chatMessages cid := by
    have hslice : ∀ i : Nat, pageSlice (db.chatMessages cid) ((i : Int) + 1) P
        = ((db.chatMessages cid).drop (i * P.toNat)).take P.toNat := by
      intro i
      have h1 : ((i : Int) + 1 - 1) = (i : Int) := by ring
      rw [pageSlice_eq _ _ P hP (by omega), h1, Int.toNat_ofNat]
    simp only [hslice]
    rw [pagesJoin]
    exact List.take_of_length_le hle
  refine ⟨hA, hB, ?_, ?_, htot1, hle, ?_, ?_, ?_⟩
  · exact pairwise_sortById (db.msgRows cid)
  · exact sortById_perm (db.msgRows cid)
  · intro k hk hNk
    rw [htotNat]
    exact totalPages_min _ _ k hp0 hk hNk
  · intro h0
    rw [hA 1 le_rfl]
    have hnil : db.chatMessages cid = [] := List.length_eq_zero.mp h0
    have htot1' : totalPagesCalc (db.chatMessages cid).length P = 1 := by
      rw [htot, h0]
      have : (0 + P.toNat - 1) / P.toNat = 0 :=
        Nat.div_eq_of_lt (by omega)
      rw [this]
      rfl
    rw [htot1', hnil]
    simp [pageSlice, sqlOffset, sqlLimit]
  · intro page hgt
    have hpage1 : 1 ≤ page := by omega
    rw [pageSlice_eq _ _ P hP hpage1]
    have hge : (totalPagesCalc (db.chatMessages cid).length P).toNat
        ≤ (page - 1).toNat := by omega
    have : (db.chatMessages cid).length ≤ (page - 1).toNat * P.toNat :=
      le_trans hle (Nat.mul_le_mul_right _ hge)
    rw [List.drop_eq_nil_of_le this, List.take_nil]

/-- Witness for C2 on a thread with three messages and `per_page = 2`:
pages 1 and 2 partition the messages and both report `total_pages = 2`. -/
theorem get_messages_pagination_witness :
    get_chat_messages dbThree 1 1 1 2 = .ok ([("user", "a"), ("assistant", "b")], 2)
    ∧ get_chat_messages dbThree 1 1 2 2 = .ok ([("user", "c")], 2)
    ∧ get_chat_messages dbThree 1 1 3 2 = .ok ([], 2) := by
  have h := get_messages_pagination dbThree 1 1 ⟨1, 1, "abc"⟩ (by decide) 2 (by decide)
  refine ⟨?_, ?_, ?_⟩
  · rw [h.1 1 (by decide)]; decide
  · rw [h.1 2 (by decide)]; decide
  · rw [h.1 3 (by decide)]; decide

theorem string_take_of_length_le (s : String) (n : Nat) (h : s.length ≤ n) :
    s.take n = s :=
  String.ext (by rw [String.data_take]; exact List.take_of_length_le h)

theorem userMsgCount_of_append (db db' : DB) (cid : Nat) (msg : Message)
    (h : db'.messages = db.messages ++ [msg]) :
    db'.userMsgCount cid = db.userMsgCount cid
      + (if msg.chat_id == cid && msg.role == "user" then 1 else 0) := by
  unfold DB.userMsgCount
  rw [h, List.filter_append, List.length_append]
  congr 1
  by_cases hm : (msg.chat_id == cid && msg.role == "user") = true
  · simp [List.filter_cons, hm]
  · simp [List.filter_cons, hm]

theorem threadName_congr (db db' : DB) (uid cid : Nat)
    (h : db'.chats = db.chats) : threadName db' uid cid = threadName db uid cid := by
  unfold threadName DB.findChat
  rw [h]

theorem find?_chat_map_rename (l : List Chat) (uid cid : Nat) (newName : String) :
    (l.map (fun ch => if ch.id == cid then { ch with name := newName } else ch)).find?
        (fun c => c.id == cid && c.user_id == uid)
      = (l.find? (fun c => c.id == cid && c.user_id == uid)).map
          (fun ch => if ch.id == cid then { ch with name := newName } else ch) := by
  have hpf : ((fun c : Chat => c.id == cid && c.user_id == uid) ∘ fun ch =>
      if ch.id == cid then { ch with name := newName } else ch)
      = (fun c : Chat => c.id == cid && c.user_id == uid) := by
    funext ch
    by_cases hch : (ch.id == cid) = true
    · simp [Function.comp, hch]
    · simp [Function.comp, hch]
  rw [List.find?_map, hpf]

theorem send_ok_cases (db : DB) (uid cid : Nat) (role content : Option String)
    (db' : DB) (mid : Nat)
    (hok : send_message_to_chat db uid cid role content = .ok (db', mid)) :
    mid = db.nextMessageId
    ∧ db'.messages = db.messages
        ++ [⟨db.nextMessageId, cid, role.getD "user", content.getD ""⟩]
    ∧ (db'.chats = db.chats
       ∨ (role.getD "user" = "user"
          ∧ (∃ chat, db.findChat cid uid = some chat ∧ chat.name = "New Chat")
          ∧ db.userMsgCount cid = 0
          ∧ db'.chats = db.chats.map (fun ch =>
              if ch.id == cid
              then { ch with name := autoRenameText (content.getD "") } else ch))) := by
  cases hfc : db.findChat cid uid with
  | none => simp [send_message_to_chat, hfc] at hok
  | some chat =>
    simp only [send_message_to_chat, hfc] at hok
    split at hok
    case isTrue hcond =>
      split at hok
      case isTrue hcnt =>
        simp only [Except.ok.injEq, Prod.mk.injEq] at hok
        obtain ⟨hdb', hmid⟩ := hok
        have hcond' : role.getD "user" = "user" ∧ chat.name = "New Chat" := by
          simpa using hcond
        obtain ⟨hrole', hname'⟩ := hcond'
        have hcnt' : DB.userMsgCount
            ⟨db.chats,
             db.messages ++ [⟨db.nextMessageId, cid, role.getD "user", content.getD ""⟩],
             db.nextChatId, db.nextMessageId + 1⟩ cid = 1 := by
          simpa using hcnt
        refine ⟨hmid.symm, ?_, Or.inr ⟨hrole', ⟨chat, rfl, hname'⟩, ?_, ?_⟩⟩
        · rw [← hdb']
        · have hstep := userMsgCount_of_append db
            ⟨db.chats,
             db.messages ++ [⟨db.nextMessageId, cid, role.getD "user", content.getD ""⟩],
             db.nextChatId, db.nextMessageId + 1⟩ cid
            ⟨db.nextMessageId, cid, role.getD "user", content.getD ""⟩ rfl
          rw [hstep] at hcnt'
          simp [hrole'] at hcnt'
          omega
        · rw [← hdb']
      case isFalse hcnt =>
        simp only [Except.ok.injEq, Prod.mk.injEq] at hok
        obtain ⟨hdb', hmid⟩ := hok
        exact ⟨hmid.symm, by rw [← hdb'], Or.inl (by rw [← hdb'])⟩
    case isFalse hcond =>
      simp only [Except.ok.injEq, Prod.mk.injEq] at hok
      obtain ⟨hdb', hmid⟩ := hok
      exact ⟨hmid.symm, by rw [← hdb'], Or.inl (by rw [← hdb'])⟩

theorem send_ok_threadName (db : DB) (uid cid : Nat) (role content : Option String)
    (db' : DB) (mid : Nat)
    (hok : send_message_to_chat db uid cid role content = .ok (db', mid))
    (hne : threadName db' uid cid ≠ threadName db uid cid) :
    role.getD "user" = "user" ∧ threadName db uid cid = some "New Chat"
    ∧ db.userMsgCount cid = 0
    ∧ threadName db' uid cid = some (autoRenameText (content.getD "")) := by
  rcases (send_ok_cases db uid cid role content db' mid hok).2.2 with hsame | hren
  · exact absurd (threadName_congr db db' uid cid hsame) hne
  · obtain ⟨hrole, ⟨chat, hfc, hname⟩, hcnt, hchats⟩ := hren
    have hfc' : db.chats.find? (fun c => c.id == cid && c.user_id == uid) = some chat := hfc
    have hpchat := List.find?_some hfc'
    simp only [Bool.and_eq_true, beq_iff_eq] at hpchat
    have htn : threadName db uid cid = some "New Chat" := by
      simp [threadName, DB.findChat, hfc', hname]
    refine ⟨hrole, htn, hcnt, ?_⟩
    have hfind' : db'.findChat cid uid
        = some { chat with name := autoRenameText (content.getD "") } := by
      show db'.chats.find? _ = _
      rw [hchats, find?_chat_map_rename, hfc']
      simp [hpchat.1]
    simp [threadName, hfind']

theorem userMsgCount_send_le (db : DB) (uid cid : Nat) (role content : Option String)
    (db' : DB) (mid : Nat)
    (hok : send_message_to_chat db uid cid role content = .ok (db', mid)) :
    db.userMsgCount cid ≤ db'.userMsgCount cid := by
  have h := (send_ok_cases db uid cid role content db' mid hok).2.1
  rw [userMsgCount_of_append db db' cid _ h]
  exact Nat.le_add_right _ _

theorem sendStep_count_le (uid cid : Nat) (db : DB)
    (req : Option String × Option String) :
    db.userMsgCount cid ≤ (sendStep uid cid db req).userMsgCount cid := by
  unfold sendStep
  cases hs : send_message_to_chat db uid cid req.1 req.2 with
  | ok p => exact userMsgCount_send_le db uid cid req.1 req.2 p.1 p.2 (by rw [hs])
  | error e => exact le_rfl

theorem sendStep_change (uid cid : Nat) (db : DB)
    (req : Option String × Option String)
    (hne : threadName (sendStep uid cid db req) uid cid ≠ threadName db uid cid) :
    req.1.getD "user" = "user" ∧ threadName db uid cid = some "New Chat"
    ∧ db.userMsgCount cid = 0
    ∧ 1 ≤ (sendStep uid cid db req).userMsgCount cid := by
  cases hs : send_message_to_chat db uid cid req.1 req.2 with
  | error e =>
    unfold sendStep at hne
    rw [hs] at hne
    simp at hne
  | ok p =>
    obtain ⟨db', mid⟩ := p
    have hstep : sendStep uid cid db req = db' := by unfold sendStep; rw [hs]
    rw [hstep] at hne ⊢
    have h := send_ok_threadName db uid cid req.1 req.2 db' mid hs hne
    refine ⟨h.1, h.2.1, h.2.2.1, ?_⟩
    have hmsg := (send_ok_cases db uid cid req.1 req.2 db' mid hs).2.1
    rw [userMsgCount_of_append db db' cid _ hmsg]
    simp [h.1]

theorem nameChanges_zero_of_pos (uid cid : Nat) :
    ∀ (reqs : List (Option String × Option String)) (db : DB),
      1 ≤ db.userMsgCount cid → nameChanges uid cid db reqs = 0
  | [], _, _ => rfl
  | req :: reqs, db, hpos => by
    have hstep : threadName (sendStep uid cid db req) uid cid
        = threadName db uid cid := by
      by_contra hne
      have h0 := (sendStep_change uid cid db req hne).2.2.1
      omega
    simp only [nameChanges, if_pos hstep, Nat.zero_add]
    exact nameChanges_zero_of_pos uid cid reqs _
      (le_trans hpos (sendStep_count_le uid cid db req))

theorem nameChanges_le_one (uid cid : Nat) :
    ∀ (reqs : List (Option String × Option String)) (db : DB),
      nameChanges uid cid db reqs ≤ 1
  | [], _ => by simp [nameChanges]
  | req :: reqs, db => by
    by_cases hch : threadName (sendStep uid cid db req) uid cid
        = threadName db uid cid
    · simp only [nameChanges, if_pos hch, Nat.zero_add]
      exact nameChanges_le_one uid cid reqs _
    · have h1 := (sendStep_change uid cid db req hch).2.2.2
      have h0 := nameChanges_zero_of_pos uid cid reqs _ h1
      simp [nameChanges, if_neg hch, h0]

/-- C3: across any sequence of `send_message_to_chat` calls the owner-visible
thread name is rewritten at most once (first conjunct), and a single append
changes the name only when its effective role is `"user"`, the name still
equals the default sentinel `"New Chat"`, and no user-role message existed
before — i.e. only the first user-role message while the name is at the
sentinel; assistant appends and later user appends never change it
(second conjunct, contrapositive). -/
theorem thread_renamed_at_most_once (uid cid : Nat) :
    (∀ (db : DB) (reqs : List (Option String × Option String)),
        nameChanges uid cid db reqs ≤ 1)
    ∧ (∀ (db db' : DB) (role content : Option String) (mid : Nat),
        send_message_to_chat db uid cid role content = .ok (db', mid) →
        threadName db' uid cid ≠ threadName db uid cid →
        role.getD "user" = "user" ∧ threadName db uid cid = some "New Chat"
          ∧ db.userMsgCount cid = 0) :=
  ⟨fun db reqs => nameChanges_le_one uid cid reqs db,
   fun db db' role content mid hok hne =>
     have h := send_ok_threadName db uid cid role content db' mid hok hne
     ⟨h.1, h.2.1, h.2.2.1⟩⟩

/-- Witness for C3: on a fresh thread, two user appends change the name at
most once, and a concrete name-changing append satisfies the three
conditions of the second conjunct. -/
theorem thread_renamed_at_most_once_witness :
    nameChanges 1 1 dbFresh [(some "user", some "hello"), (some "user", some "world")] ≤ 1
    ∧ ((some "user" : Option String).getD "user" = "user"
        ∧ threadName dbFresh 1 1 = some "New Chat" ∧ dbFresh.userMsgCount 1 = 0) :=
  ⟨(thread_renamed_at_most_once 1 1).1 dbFresh
      [(some "user", some "hello"), (some "user", some "world")],
   (thread_renamed_at_most_once 1 1).2 dbFresh
      ⟨[⟨1, 1, "hello"⟩], [⟨1, 1, "user", "hello"⟩], 2, 2⟩
      (some "user") (some "hello") 1 (by decide) (by decide)⟩

/-- C4: when the auto-rename fires, the new name is the message content
itself for contents of at most 10 characters (no marker), and the first 10
characters followed by `"..."` for longer contents; in particular
`"Hello there, friend"` (19 characters) yields `"Hello ther..."`.  The last
conjunct ties this to the handler: whenever an append changes the
owner-visible thread name, the new name is exactly `autoRenameText` of the
message content. -/
theorem auto_rename_truncation :
    (∀ c : String, c.length ≤ 10 → autoRenameText c = c)
    ∧ (∀ c : String, 10 < c.length → autoRenameText c = c.take 10 ++ "...")
    ∧ autoRenameText "Hello there, friend" = "Hello ther..."
    ∧ (∀ (db db' : DB) (uid cid : Nat) (role content : Option String) (mid : Nat),
        send_message_to_chat db uid cid role content = .ok (db', mid) →
        threadName db' uid cid ≠ threadName db uid cid →
        threadName db' uid cid = some (autoRenameText (content.getD ""))) := by
  refine ⟨?_, ?_, by decide, ?_⟩
  · intro c hc
    simp only [autoRenameText]
    rw [if_neg (by omega), string_take_of_length_le c 10 hc]
  · intro c hc
    simp only [autoRenameText]
    rw [if_pos hc]
  · intro db db' uid cid role content mid hok hne
    exact (send_ok_threadName db uid cid role content db' mid hok hne).2.2.2

/-- Witness for C4: a 5-character content is kept verbatim, the 19-character
example truncates with the marker, and a concrete name-changing append
produces exactly `autoRenameText` of its content. -/
theorem auto_rename_truncation_witness :
    autoRenameText "abcde" = "abcde"
    ∧ autoRenameText "Hello there, friend" = "Hello there, friend".take 10 ++ "..."
    ∧ threadName ⟨[⟨1, 1, "Hello ther..."⟩],
        [⟨1, 1, "user", "Hello there, friend"⟩], 2, 2⟩ 1 1
        = some (autoRenameText ((some "Hello there, friend" : Option String).getD "")) :=
  ⟨auto_rename_truncation.1 "abcde" (by decide),
   auto_rename_truncation.2.1 "Hello there, friend" (by decide),
   auto_rename_truncation.2.2.2 dbFresh
      ⟨[⟨1, 1, "Hello ther..."⟩], [⟨1, 1, "user", "Hello there, friend"⟩], 2, 2⟩
      1 1 (some "user") (some "Hello there, friend") 1 (by decide) (by decide)⟩

/-- C5 counterexample: the handler performs no role validation.  With a role
outside the `"user"`/`"assistant"` enumeration (`"banana"`), the appended
request succeeds with HTTP 201 and stores the role verbatim, instead of
failing with a 422 `ValidationError` and appending nothing as the claim
states. -/
theorem send_message_invalid_role_counterexample :
    send_message_to_chat dbFresh 1 1 (some "banana") (some "hi")
      = .ok (⟨[⟨1, 1, "New Chat"⟩], [⟨1, 1, "banana", "hi"⟩], 2, 2⟩, 1) := by
  decide

/-- C5 amended: `send_message_to_chat` accepts every role value — for any
ownership-authorized request the append succeeds and stores the given role
verbatim (never coerced, never rejected); no 422 is produced for an
unrecognized role. -/
theorem send_message_accepts_any_role (db : DB) (uid cid : Nat) (chat : Chat)
    (h : db.findChat cid uid = some chat) (role content : String) :
    (send_message_to_chat db uid cid (some role) (some content)).toOption.map
        (fun p => (p.1.messages, p.2))
      = some (db.messages ++ [⟨db.nextMessageId, cid, role, content⟩],
              db.nextMessageId) := by
  simp only [send_message_to_chat, h, Option.getD_some]
  split
  · split
    · simp [Except.toOption]
    · simp [Except.toOption]
  · simp [Except.toOption]

/-- Witness for the amended C5 at the concrete role `"banana"`. -/
theorem send_message_accepts_any_role_witness :
    (send_message_to_chat dbFresh 1 1 (some "banana") (some "hi")).toOption.map
        (fun p => (p.1.messages, p.2))
      = some ([⟨1, 1, "banana", "hi"⟩], 1) := by
  rw [send_message_accepts_any_role dbFresh 1 1 ⟨1, 1, "New Chat"⟩ (by decide)
    "banana" "hi"]
  decide

/-- C6: for the owner, `delete_chat` succeeds; the committed store (produced
in a single state transition, so no partial deletion is observable) contains
no message of the thread, keeps every message of other threads, contains no
chat row with the thread's id, and a subsequent `get_chat_messages` by the
former owner fails with `NotAuthorized` rather than returning an empty
list. -/
theorem delete_chat_cascades (db : DB) (uid cid : Nat) (chat : Chat)
    (h : db.findChat cid uid = some chat) (page per_page : Int) :
    (delete_chat db uid cid).isOk = true
    ∧ ∀ db', delete_chat db uid cid = .ok db' →
        (∀ m ∈ db'.messages, m.chat_id ≠ cid)
        ∧ (∀ m ∈ db.messages, m.chat_id ≠ cid → m ∈ db'.messages)
        ∧ (∀ c ∈ db'.chats, c.id ≠ cid)
        ∧ get_chat_messages db' uid cid page per_page = .error .NotAuthorized := by
  constructor
  · simp [delete_chat, h, Except.isOk, Except.toBool]
  · intro db' hdel
    simp only [delete_chat, h, Except.ok.injEq] at hdel
    subst hdel
    refine ⟨?_, ?_, ?_, ?_⟩
    · intro m hm
      have := (List.mem_filter.mp hm).2
      simpa using this
    · intro m hm hne
      exact List.mem_filter.mpr ⟨hm, by simpa using hne⟩
    · intro c hc
      have := (List.mem_filter.mp hc).2
      simpa using this
    · have hfind : DB.findChat
          { db with
            messages := db.messages.filter (fun m => !(m.chat_id == cid)),
            chats := db.chats.filter (fun c => !(c.id == cid)) } cid uid = none := by
        apply List.find?_eq_none.mpr
        intro c hc
        have hcne : ¬ c.id = cid := by simpa using (List.mem_filter.mp hc).2
        simp [hcne]
      simp [get_chat_messages, hfind]

/-- Witness for C6: deleting thread 1 of `dbThree` empties both tables and a
follow-up read by the former owner is rejected as `NotAuthorized`. -/
theorem delete_chat_cascades_witness :
    (delete_chat dbThree 1 1).isOk = true
    ∧ get_chat_messages (⟨[], [], 2, 4⟩ : DB) 1 1 1 20 = .error .NotAuthorized :=
  ⟨(delete_chat_cascades dbThree 1 1 ⟨1, 1, "abc"⟩ (by decide) 1 20).1,
   ((delete_chat_cascades dbThree 1 1 ⟨1, 1, "abc"⟩ (by decide) 1 20).2
      ⟨[], [], 2, 4⟩ (by decide)).2.2.2⟩

/-- C7 counterexample: a successful upload into a default-named thread with
no prior user messages appends its two messages (user filename record, then
assistant summary) but does NOT rename the thread: the upload handler
inserts `Message` rows directly and never runs `send_message_to_chat`, so
the first-user-message naming rule does not apply, contradicting the claim
that such an upload renames the thread. -/
theorem upload_does_not_rename_counterexample :
    upload_chat_file dbFresh 1 1 "notes.txt" "hello world" (fun _ => some "A summary.")
      = .ok (⟨[⟨1, 1, "New Chat"⟩],
              [⟨1, 1, "user", "📎 Uploaded file: notes.txt"⟩,
               ⟨2, 1, "assistant", "Here\x27s a summary of notes.txt:\n\nA summary."⟩],
              2, 3⟩,
             "chat_1_notes.txt", "A summary.")
    ∧ threadName dbFresh 1 1 = some "New Chat"
    ∧ dbFresh.userMsgCount 1 = 0
    ∧ threadName ⟨[⟨1, 1, "New Chat"⟩],
        [⟨1, 1, "user", "📎 Uploaded file: notes.txt"⟩,
         ⟨2, 1, "assistant", "Here\x27s a summary of notes.txt:\n\nA summary."⟩],
        2, 3⟩ 1 1 = some "New Chat" := by
  decide

/-- C7 amended: every successful upload appends exactly two messages to the
thread, in order — first the user-role filename record, then the
assistant-role message embedding the summary — but the appends are direct
row inserts that bypass `send_message_to_chat`, so the first-user-message
thread-naming rule never fires: the chats table (hence every thread name) is
unchanged, even for a default-named thread with no prior user messages. -/
theorem upload_appends_two_messages (db : DB) (uid cid : Nat) (chat : Chat)
    (h : db.findChat cid uid = some chat) (filename text : String)
    (summarize : String → Option String)
    (hext : (content_type_map (strLower (splitextExt filename))).isSome = true) :
    (upload_chat_file db uid cid filename text summarize).toOption.map
        (fun p => (p.1.messages, p.1.chats, p.2.2))
      = some (db.messages
          ++ [⟨db.nextMessageId, cid, "user", "📎 Uploaded file: " ++ filename⟩,
              ⟨db.nextMessageId + 1, cid, "assistant",
                "Here\x27s a summary of " ++ filename ++ ":\n\n"
                  ++ uploadSummary text summarize⟩],
          db.chats, uploadSummary text summarize) := by
  obtain ⟨ct, hct⟩ := Option.isSome_iff_exists.mp hext
  simp [upload_chat_file, h, hct, Except.toOption]

/-- Witness for the amended C7: a concrete upload appends exactly the two
messages and leaves the chats table (name `"New Chat"`) unchanged. -/
theorem upload_appends_two_messages_witness :
    (upload_chat_file dbFresh 1 1 "notes.txt" "hello world"
        (fun _ => some "A summary.")).toOption.map
        (fun p => (p.1.messages, p.1.chats, p.2.2))
      = some ([⟨1, 1, "user", "📎 Uploaded file: notes.txt"⟩,
               ⟨2, 1, "assistant", "Here\x27s a summary of notes.txt:\n\nA summary."⟩],
              [⟨1, 1, "New Chat"⟩], "A summary.") := by
  rw [upload_appends_two_messages dbFresh 1 1 ⟨1, 1, "New Chat"⟩ (by decide)
    "notes.txt" "hello world" (fun _ => some "A summary.") (by decide)]
  decide

/-- C8: an upload whose filename extension is not mapped (e.g. `.csv`) fails
with a 422 `ValidationError` before any insert — the handler returns no
store, so zero messages are appended; an upload with a supported extension
whose extracted text is empty or blank still succeeds and appends exactly
two messages, the filename record plus the fixed fallback placeholder
summary — never zero and never one. -/
theorem upload_unsupported_and_empty_text :
    (∀ (db : DB) (uid cid : Nat) (chat : Chat),
      db.findChat cid uid = some chat →
      ∀ (filename text : String) (summarize : String → Option String),
        content_type_map (strLower (splitextExt filename)) = none →
        upload_chat_file db uid cid filename text summarize
          = .error (.ValidationError
              ("Unsupported file type: " ++ strLower (splitextExt filename))))
    ∧ content_type_map (strLower (splitextExt "data.csv")) = none
    ∧ (∀ (db : DB) (uid cid : Nat) (chat : Chat),
      db.findChat cid uid = some chat →
      ∀ (filename text : String) (summarize : String → Option String),
        (content_type_map (strLower (splitextExt filename))).isSome = true →
        isBlank text = true →
        (upload_chat_file db uid cid filename text summarize).toOption.map
            (fun p => (p.1.messages, p.2.2))
          = some (db.messages
              ++ [⟨db.nextMessageId, cid, "user", "📎 Uploaded file: " ++ filename⟩,
                  ⟨db.nextMessageId + 1, cid, "assistant",
                    "Here\x27s a summary of " ++ filename ++ ":\n\n"
                      ++ "The file appears to be empty or could not be processed."⟩],
              "The file appears to be empty or could not be processed.")) := by
  refine ⟨?_, by decide, ?_⟩
  · intro db uid cid chat h filename text summarize hnone
    simp [upload_chat_file, h, hnone]
  · intro db uid cid chat h filename text summarize hext hblank
    obtain ⟨ct, hct⟩ := Option.isSome_iff_exists.mp hext
    simp [upload_chat_file, h, hct, Except.toOption, uploadSummary, hblank]

/-- Witness for C8: a `.csv` upload is rejected with the 422 detail string,
and a `.txt` upload whose extracted text is empty succeeds with exactly the
two messages and the fallback summary. -/
theorem upload_unsupported_and_empty_text_witness :
    upload_chat_file dbFresh 1 1 "data.csv" "text" (fun _ => some "s")
      = .error (.ValidationError "Unsupported file type: .csv")
    ∧ (upload_chat_file dbFresh 1 1 "notes.txt" "" (fun _ => some "s")).toOption.map
        (fun p => (p.1.messages, p.2.2))
      = some ([⟨1, 1, "user", "📎 Uploaded file: notes.txt"⟩,
               ⟨2, 1, "assistant",
                 "Here\x27s a summary of notes.txt:\n\nThe file appears to be empty or could not be processed."⟩],
              "The file appears to be empty or could not be processed.") := by
  constructor
  · rw [upload_unsupported_and_empty_text.1 dbFresh 1 1 ⟨1, 1, "New Chat"⟩
      (by decide) "data.csv" "text" (fun _ => some "s") (by decide)]
    decide
  · rw [upload_unsupported_and_empty_text.2.2 dbFresh 1 1 ⟨1, 1, "New Chat"⟩
      (by decide) "notes.txt" "" (fun _ => some "s") (by decide) (by decide)]
    decide

/-- C9 (code behavior at the claimed inputs): the handler does not validate
pagination.  For the owner of a thread with three messages, `page = 0` is
silently accepted — the negative `OFFSET` is clamped and the full message
list is returned with `total_pages = 1` — and `per_page = 0` raises
`ZeroDivisionError` at the `total_pages` computation, surfacing as an HTTP
500, after the count query has already touched the message store.  Neither
input produces the `ValidationError` the claim requires. -/
theorem pagination_lenient_nonpositive :
    get_chat_messages dbThree 1 1 0 20
      = .ok ([("user", "a"), ("assistant", "b"), ("user", "c")], 1)
    ∧ get_chat_messages dbThree 1 1 1 0 = .error .ServerError := by
  decide

/-- C10: every ownership-authorized `send_message_to_chat` whose body omits
the `"role"` key or the `"content"` key does not fail: the omitted role
silently defaults to `"user"` and the omitted content to `""`, and the
message is appended with those values (first conjunct — no freshness
assumption, any thread, any prior messages).  Consequently an empty body
appends an empty-content user message, and on a thread still named
`"New Chat"` with no prior user-role messages that empty content becomes the
thread's new name: the empty string, with no truncation marker (second
conjunct). -/
theorem send_message_empty_body_defaults (db : DB) (uid cid : Nat) (chat : Chat)
    (h : db.findChat cid uid = some chat) :
    (∀ role content : Option String, role = none ∨ content = none →
      (send_message_to_chat db uid cid role content).toOption.map
          (fun p => (p.1.messages, p.2))
        = some (db.messages
            ++ [⟨db.nextMessageId, cid, role.getD "user", content.getD ""⟩],
            db.nextMessageId))
    ∧ (chat.name = "New Chat" → db.userMsgCount cid = 0 →
      (send_message_to_chat db uid cid none none).toOption.map
          (fun p => (p.1.messages, threadName p.1 uid cid, p.2))
        = some (db.messages ++ [⟨db.nextMessageId, cid, "user", ""⟩],
                some "", db.nextMessageId)) := by
  constructor
  · intro role content _homit
    simp only [send_message_to_chat, h]
    split
    · split
      · simp [Except.toOption]
      · simp [Except.toOption]
    · simp [Except.toOption]
  · intro hname hcount
    have hfc' : db.chats.find? (fun c => c.id == cid && c.user_id == uid)
        = some chat := h
    have hpchat := List.find?_some hfc'
    have h2 : chat.id = cid ∧ chat.user_id = uid := by simpa using hpchat
    have hc2 : DB.userMsgCount
        ⟨db.chats, db.messages ++ [⟨db.nextMessageId, cid, "user", ""⟩],
         db.nextChatId, db.nextMessageId + 1⟩ cid = 1 := by
      rw [userMsgCount_of_append db _ cid ⟨db.nextMessageId, cid, "user", ""⟩ rfl]
      simp [hcount]
    have hth : threadName
        ⟨db.chats.map (fun ch => if ch.id == cid
            then { ch with name := autoRenameText "" } else ch),
         db.messages ++ [⟨db.nextMessageId, cid, "user", ""⟩],
         db.nextChatId, db.nextMessageId + 1⟩ uid cid = some "" := by
      unfold threadName DB.findChat
      simp only [find?_chat_map_rename, hfc', Option.map_some]
      simp [h2.1]
      decide
    simp only [send_message_to_chat, h, Option.getD_none, hname, beq_self_eq_true,
      Bool.and_self, if_true, hc2]
    simp only [Except.toOption, Option.map, hth]

/-- Witness for C10, covering the cases the claim quantifies over: on a
renamed thread with prior user messages, a body with only `"role"` (content
omitted) and a body with only `"content"` (role omitted) both succeed with
the respective default applied; and an entirely empty body on a fresh
default-named thread appends an empty-content user message and renames the
thread to the empty string. -/
theorem send_message_empty_body_defaults_witness :
    (send_message_to_chat dbThree 1 1 (some "assistant") none).toOption.map
        (fun p => (p.1.messages, p.2))
      = some (dbThree.messages ++ [⟨4, 1, "assistant", ""⟩], 4)
    ∧ (send_message_to_chat dbThree 1 1 none (some "hi")).toOption.map
        (fun p => (p.1.messages, p.2))
      = some (dbThree.messages ++ [⟨4, 1, "user", "hi"⟩], 4)
    ∧ (send_message_to_chat dbFresh 1 1 none none).toOption.map
        (fun p => (p.1.messages, threadName p.1 1 1, p.2))
      = some ([⟨1, 1, "user", ""⟩], some "", 1) := by
  refine ⟨?_, ?_, ?_⟩
  · rw [(send_message_empty_body_defaults dbThree 1 1 ⟨1, 1, "abc"⟩ (by decide)).1
      (some "assistant") none (Or.inr rfl)]
    decide
  · rw [(send_message_empty_body_defaults dbThree 1 1 ⟨1, 1, "abc"⟩ (by decide)).1
      none (some "hi") (Or.inl rfl)]
    decide
  · rw [(send_message_empty_body_defaults dbFresh 1 1 ⟨1, 1, "New Chat"⟩
      (by decide)).2 rfl (by decide)]
    decide
